import Mathlib

/-!
Verification of the hyperscript virtual-node builder and renderer found in
`devtools/server/actors/highlighters/utils/hyper-script.js`.

The JavaScript code is shallowly embedded: JavaScript values are modelled by
the inductive type `JSVal` (objects are insertion-ordered association lists,
mirroring JS own-property enumeration order), fallible operations return
`Except JSErr`, and in-place mutation of a properties object is modelled by
threading the updated object through the computation — in the source, the
`properties` argument of `createVNode` is mutated in place and the returned
VNode's `properties` field is that very object, so "the properties object
after the call" and "the result's properties field" are one and the same.
-/

namespace HyperScript

/-- The JavaScript values the hyper-script module manipulates.  Objects are
insertion-ordered association lists with unique keys (JS own string-keyed
properties in insertion order); arrays are lists. -/
inductive JSVal where
  | undefinedV : JSVal
  | null : JSVal
  | bool : Bool → JSVal
  | num : Int → JSVal
  | str : String → JSVal
  | arr : List JSVal → JSVal
  | obj : List (String × JSVal) → JSVal

/-- The only exception kind these code paths can raise. -/
inductive JSErr where
  | typeError : String → JSErr
deriving Repr, DecidableEq

/-- `const SVG_NS = "http://www.w3.org/2000/svg"` from the source. -/
def SVG_NS : String := "http://www.w3.org/2000/svg"

/-- JS truthiness (`if (v)`). -/
def jsTruthy : JSVal → Bool
  | .undefinedV => false
  | .null => false
  | .bool b => b
  | .num n => n != 0
  | .str s => s ≠ ""
  | .arr _ => true
  | .obj _ => true

/-- JS loose equality with null (`v == null`): true exactly for `null` and
`undefined`. -/
def jsLooseEqNull : JSVal → Bool
  | .null => true
  | .undefinedV => true
  | _ => false

/-- Ordered-association-list lookup (first match). -/
def lookupProp : List (String × JSVal) → String → Option JSVal
  | [], _ => none
  | (k', v) :: rest, k => if k' = k then some v else lookupProp rest k

/-- JS property assignment on an object: an existing key is updated in place
(keeping its position in insertion order), a new key is appended. -/
def setPropList : List (String × JSVal) → String → JSVal → List (String × JSVal)
  | [], k, v => [(k, v)]
  | (k', v') :: rest, k, v =>
    if k' = k then (k, v) :: rest else (k', v') :: setPropList rest k v

/-- JS `delete o[k]`: the key is removed (a JS object holds each key at
most once, so removing the key is removing every entry with that key). -/
def delPropList (fields : List (String × JSVal)) (k : String) :
    List (String × JSVal) :=
  fields.filter (fun p => p.1 ≠ k)

/-- Key membership in an object's property list. -/
def hasKey (fields : List (String × JSVal)) (k : String) : Bool :=
  fields.any (fun p => p.1 = k)

/-- JS property read `o.k`: throws on `null`/`undefined`, yields the value
(or `undefined`) on objects, and `undefined` on other values (primitives are
boxed and none of the keys used here exists on a wrapper). -/
def getMemberE : JSVal → String → Except JSErr JSVal
  | .undefinedV, k => .error (.typeError ("cannot read property " ++ k ++ " of undefined"))
  | .null, k => .error (.typeError ("cannot read property " ++ k ++ " of null"))
  | .obj fields, k => .ok ((lookupProp fields k).getD .undefinedV)
  | _, _ => .ok .undefinedV

/-- JS `k in o`: defined on objects (and arrays, where none of the keys used
here exists), a `TypeError` on primitives, `null` and `undefined`. -/
def hasKeyE : JSVal → String → Except JSErr Bool
  | .obj fields, k => .ok (hasKey fields k)
  | .arr _, _ => .ok false
  | _, k => .error (.typeError ("cannot use in operator to search for " ++ k))

/-- JS property write `o.k = v` (strict mode): updates objects, throws on
primitives, `null` and `undefined`.  (A write to an array property never
happens on the modelled paths.) -/
def setMemberE : JSVal → String → JSVal → Except JSErr JSVal
  | .obj fields, k, v => .ok (.obj (setPropList fields k v))
  | .arr xs, _, _ => .ok (.arr xs)
  | _, k, _ => .error (.typeError ("cannot assign property " ++ k))

/-- JS `delete o.k` on an object. -/
def delMemberE : JSVal → String → Except JSErr JSVal
  | .obj fields, k => .ok (.obj (delPropList fields k))
  | v, _ => .ok v

/-- `isVNode` from the source, on a value already known to be an object:
`"tagName" in target && "properties" in target`. -/
def isVNodeB : JSVal → Bool
  | .obj fields => hasKey fields "tagName" && hasKey fields "properties"
  | _ => false

/-- `isVNode` applied to an arbitrary (truthy) value: the `in` operator
throws on primitives. -/
def isVNodeE : JSVal → Except JSErr Bool
  | .obj fields => .ok (hasKey fields "tagName" && hasKey fields "properties")
  | .arr _ => .ok false
  | _ => .error (.typeError "cannot use in operator to search for tagName")

/-- JS `String(v)` coercion, with a structural fuel parameter consumed one
unit per array-nesting level: arrays stringify as their elements joined by
commas (`null`/`undefined` elements becoming empty, per
`Array.prototype.join`), and the fuel below dominates the nesting depth of
every value these code paths build, so the zero-fuel arm is unreachable. -/
def jsToStringGo (fuel : Nat) : JSVal → String
  | .undefinedV => "undefined"
  | .null => "null"
  | .bool b => if b then "true" else "false"
  | .num n => toString n
  | .str s => s
  | .obj _ => "[object Object]"
  | .arr xs =>
    match fuel with
    | 0 => ""
    | n + 1 =>
      String.intercalate "," (xs.map (fun x =>
        match x with
        | .undefinedV => ""
        | .null => ""
        | x => jsToStringGo n x))

/-- JS `String(v)` coercion for the values in the model. -/
def jsToString (v : JSVal) : String :=
  jsToStringGo 1000000 v

/-- Element conversion used by `Array.prototype.join`: `null` and
`undefined` become the empty string, everything else its string coercion. -/
def jsJoinElem : JSVal → String
  | .undefinedV => ""
  | .null => ""
  | v => jsToString v

/-- `Array.prototype.join(sep)`. -/
def jsJoin (sep : String) (vs : List JSVal) : String :=
  String.intercalate sep (vs.map jsJoinElem)

/-- `tagName.toUpperCase()`: character-wise upper-casing (the tag names
reaching it are ASCII). -/
def jsToUpper (s : String) : String :=
  String.mk (s.data.map Char.toUpper)

/-- JS string concatenation `a + b` where `b` is already a string. -/
def jsStrConcat (a : JSVal) (b : String) : String :=
  jsToString a ++ b

/-- `[].concat(...args)`: arrays among the arguments are spread one level,
other values are appended as they are. -/
def jsConcatSpread (args : List JSVal) : List JSVal :=
  args.flatMap (fun a => match a with
    | .arr xs => xs
    | v => [v])

/-- A character of the regex class `[\w+_-]` (first alternative of the
selector token grammar; `\w` is `[A-Za-z0-9_]` and the class adds `+` and
`-`). -/
def isWordChar (c : Char) : Bool :=
  c.isAlphanum || c = '_' || c = '+' || c = '-'

/-- A character of the regex class `[#.]`. -/
def isHashDot (c : Char) : Bool :=
  c = '#' || c = '.'

theorem length_dropWhile_le (p : Char → Bool) (l : List Char) :
    (l.dropWhile p).length ≤ l.length := by
  induction l with
  | nil => simp [List.dropWhile]
  | cons c rest ih =>
    by_cases h : p c
    · simp only [List.dropWhile, h]
      exact Nat.le_succ_of_le ih
    · simp [List.dropWhile, h]

/-- The scan of the selector regex `/[\w+_-]+|[#.][^#.]+/g`, with a fuel
parameter for structural recursion: every recursive call consumes at least
one character, so `fuel = cs.length` (as `tokenize` passes below) never
reaches the unreachable zero-fuel arm. -/
def tokenizeGo : Nat → List Char → List String
  | _, [] => []
  | 0, _ :: _ => []
  | fuel + 1, c :: rest =>
    if isWordChar c then
      String.mk (c :: rest.takeWhile isWordChar) ::
        tokenizeGo fuel (rest.dropWhile isWordChar)
    else if isHashDot c then
      match rest.takeWhile (fun d => !isHashDot d) with
      | [] => tokenizeGo fuel rest
      | body =>
        String.mk (c :: body) ::
          tokenizeGo fuel (rest.dropWhile (fun d => !isHashDot d))
    else tokenizeGo fuel rest

/-- Global matching of the selector regex `/[\w+_-]+|[#.][^#.]+/g`: scanning
left to right, at each position the first alternative (a maximal run of
word-class characters) is tried before the second (a `#` or `.` followed by
a maximal nonempty run of characters that are neither `#` nor `.`); when
neither matches, the scan advances one character. -/
def tokenize (cs : List Char) : List String :=
  tokenizeGo cs.length cs

/-- `matchSelector` from the source:
`selector ? selector.match(/[\w+_-]+|[#.][^#.]+/g) : []`.
A falsy selector yields `[]`; on a (truthy) string, `String.match` with a
global regex yields the token list, or `null` (modelled as `none`) when no
token matches; `.match` on a truthy non-string value throws. -/
def matchSelectorE (selector : JSVal) : Except JSErr (Option (List String)) :=
  if jsTruthy selector then
    match selector with
    | .str s =>
      match tokenize s.data with
      | [] => .ok none
      | toks => .ok (some toks)
    | _ => .error (.typeError "selector.match is not a function")
  else .ok (some [])

/-- The loop state of `createVNode`: `id`, `classes`, `tagName` and the
(mutated-in-place) `properties` object. -/
structure BuildSt where
  id : String
  classes : List JSVal
  tagName : String
  properties : JSVal

/-- `part.startsWith("svg:")`. -/
def svgColonPre (cs : List Char) : Bool :=
  match cs with
  | 's' :: 'v' :: 'g' :: ':' :: _ => true
  | _ => false

/-- One iteration of the `for (let part of parts)` loop in `createVNode`:
the source's `if`-chain on `part[0] === "#"`, `part[0] === "."`,
`part.startsWith("svg:")` and `part === "svg"`.  (On the empty string,
`part[0]` is `undefined`, so every guard is false and `tagName = part`.) -/
def processPart (st : BuildSt) (part : String) : Except JSErr BuildSt :=
  match part.data with
  | [] => .ok { st with tagName := part }
  | c :: b =>
    if c = '#' then .ok { st with id := String.mk b }
    else if c = '.' then
      .ok { st with classes := st.classes ++ [.str (String.mk b)] }
    else if svgColonPre (c :: b) then do
      let p ← setMemberE st.properties "xmlns" (.str SVG_NS)
      pure { st with tagName := String.mk ((c :: b).drop 4), properties := p }
    else if part = "svg" then do
      let p ← setMemberE st.properties "xmlns" (.str SVG_NS)
      pure { st with tagName := part, properties := p }
    else .ok { st with tagName := part }

/-- The whole `for (let part of parts)` loop. -/
def processParts (st : BuildSt) (parts : List String) : Except JSErr BuildSt :=
  parts.foldlM processPart st

/-- `createVNode(selector, properties, ...args)` from the source, line by
line.  A `null` result of `matchSelector` makes the `for…of` throw a
`TypeError`.  The `properties` object is mutated in place in JS; here the
updated object is threaded through and ends up as the result's
`properties` field, exactly as the source aliases them. -/
def createVNode (selector properties0 : JSVal) (args : List JSVal) :
    Except JSErr JSVal := do
  let partsOpt ← matchSelectorE selector
  let parts ← match partsOpt with
    | some ps => pure ps
    | none => Except.error (.typeError "parts is not iterable")
  let props0 := if jsTruthy properties0 then properties0 else .obj []
  let st ← processParts ⟨"", [], "div", props0⟩ parts
  let props1 ← if st.id ≠ "" then do
      let hasId ← hasKeyE st.properties "id"
      if hasId then pure st.properties
      else setMemberE st.properties "id" (.str st.id)
    else pure st.properties
  let xm ← getMemberE props1 "xmlns"
  let tagName := if jsTruthy xm then st.tagName else jsToUpper st.tagName
  let hasCN ← hasKeyE props1 "className"
  let classes ← if hasCN then do
      let cn ← getMemberE props1 "className"
      pure (st.classes ++ [cn])
    else pure st.classes
  let props2 ← if classes.length > 0 then do
      let hasC ← hasKeyE props1 "class"
      let propsA ← if hasC then do
          let cv ← getMemberE props1 "class"
          let p ← setMemberE props1 "className" cv
          delMemberE p "class"
        else pure props1
      setMemberE propsA "className" (.str (jsJoin " " classes))
    else pure props1
  let children := (jsConcatSpread args).filter (fun v => !jsLooseEqNull v)
  pure (.obj [("tagName", .str tagName), ("properties", props2),
              ("children", .arr children)])

/-- `h(selector, first, ...rest)` from the source: the argument-shape
dispatch.  `typeof first`: `"string"` for strings; `"object"` for `null`,
plain objects, VNodes and arrays (checked in that order by the source);
everything else (`undefined`, numbers, booleans) falls through to
`createVNode(selector, first, ...rest)`. -/
def h (selector : JSVal) (args : List JSVal) : Except JSErr JSVal :=
  match args with
  | [] => createVNode selector .undefinedV []
  | first :: rest =>
    match first with
    | .str s => do
      let isClassOrId := match s.data with
        | [] => false
        | c :: _ => c = '.' || c = '#'
      let rest0IsVNode ← match rest with
        | [] => pure false
        | r0 :: _ => if jsTruthy r0 then isVNodeE r0 else pure false
      if rest0IsVNode then
        if isClassOrId then
          createVNode (.str (jsStrConcat selector s)) (.obj []) rest
        else createVNode selector (.obj []) (first :: rest)
      else if isClassOrId then
        match rest with
        | [] => createVNode (.str (jsStrConcat selector s)) .undefinedV []
        | p :: cs => createVNode (.str (jsStrConcat selector s)) p cs
      else createVNode selector (.obj []) (first :: rest)
    | .null => createVNode selector (.obj []) rest
    | .obj _ =>
      if isVNodeB first then createVNode selector (.obj []) (first :: rest)
      else createVNode selector first rest
    | .arr xs => createVNode selector (.obj []) (xs ++ rest)
    | _ => createVNode selector first rest

/-- The SVG tag-name list from the source (the svg `<a>` is deliberately
missing, per the source comment). -/
def SVG_TAG_NAMES : List String :=
  ["altGlyph", "altGlyphDef", "altGlyphItem", "animate", "animateColor",
   "animateMotion", "animateTransform", "circle", "clipPath", "colorProfile",
   "cursor", "defs", "desc", "ellipse", "feBlend", "feColorMatrix",
   "feComponentTransfer", "feComposite", "feConvolveMatrix",
   "feDiffuseLighting", "feDisplacementMap", "feDistantLight", "feFlood",
   "feFuncA", "feFuncB", "feFuncG", "feFuncR", "feGaussianBlur", "feImage",
   "feMerge", "feMergeNode", "feMorphology", "feOffset", "fePointLight",
   "feSpecularLighting", "feSpotlight", "feTile", "feTurbulence", "filter",
   "font", "fontFace", "fontFaceFormat", "fontFaceName", "fontFaceSrc",
   "fontFaceUri", "foreignObject", "g", "glyph", "glyphRef", "hkern",
   "image", "line", "linearGradient", "marker", "mask", "metadata",
   "missingGlyph", "mpath", "path", "pattern", "polygon", "polyline",
   "radialGradient", "rect", "script", "set", "stop", "style", "switch",
   "symbol", "text", "textPath", "title", "tref", "tspan", "use", "view",
   "vkern"]

/-- The HTML tag-name list from the source. -/
def HTML_TAG_NAMES : List String :=
  ["a", "abbr", "acronym", "address", "applet", "area", "article", "aside",
   "audio", "b", "base", "basefont", "bdi", "bdo", "bgsound", "big",
   "blink", "blockquote", "body", "br", "button", "canvas", "caption",
   "center", "cite", "code", "col", "colgroup", "command", "content",
   "data", "datalist", "dd", "del", "details", "dfn", "dialog", "dir",
   "div", "dl", "dt", "element", "em", "embed", "fieldset", "figcaption",
   "figure", "font", "footer", "form", "frame", "frameset", "h1", "h2",
   "h3", "h4", "h5", "h6", "head", "header", "hgroup", "hr", "html", "i",
   "iframe", "image", "img", "input", "ins", "isindex", "kbd", "keygen",
   "label", "legend", "li", "link", "listing", "main", "map", "mark",
   "marquee", "math", "menu", "menuitem", "meta", "meter", "multicol",
   "nav", "nextid", "nobr", "noembed", "noframes", "noscript", "object",
   "ol", "optgroup", "option", "output", "p", "param", "picture",
   "plaintext", "pre", "progress", "q", "rb", "rbc", "rp", "rt", "rtc",
   "ruby", "s", "samp", "script", "section", "select", "shadow", "slot",
   "small", "source", "spacer", "span", "strike", "strong", "style", "sub",
   "summary", "sup", "svg", "table", "tbody", "td", "template", "textarea",
   "tfoot", "th", "thead", "time", "title", "tr", "track", "tt", "u", "ul",
   "var", "video", "wbr", "xmp"]

/-- Assignment into the `DOM` object: `DOM[tagName] = …` updates an existing
key in place and appends a new one (JS property assignment). -/
def setAssocStr : List (String × String) → String → String → List (String × String)
  | [], k, v => [(k, v)]
  | (k', v') :: rest, k, v =>
    if k' = k then (k, v) :: rest else (k', v') :: setAssocStr rest k v

/-- Association-list lookup (first match). -/
def lookupAssocStr : List (String × String) → String → Option String
  | [], _ => none
  | (k', v) :: rest, k => if k' = k then some v else lookupAssocStr rest k

/-- The two `forEach` passes filling the `DOM` object: every HTML tag name
is assigned the factory `(first, ...rest) => h(tagName, first, ...rest)`,
then every SVG tag name is assigned
`(first, ...rest) => h("svg:" + tagName, first, ...rest)` (overwriting any
namesake HTML entry).  The map records, for each factory name, the selector
the factory passes to `h`. -/
def DOMmap : List (String × String) :=
  SVG_TAG_NAMES.foldl (fun m t => setAssocStr m t ("svg:" ++ t))
    (HTML_TAG_NAMES.foldl (fun m t => setAssocStr m t t) [])

/-- The selector string the factory `DOM[name]` pre-fills, if `name` is a
key of `DOM`. -/
def DOMsel (name : String) : Option String :=
  lookupAssocStr DOMmap name

/-- Calling the factory `DOM[name](first, ...rest)`: each factory merely
forwards its whole argument list to `h` with its selector pre-filled. -/
def DOMcall (name : String) (args : List JSVal) :
    Option (Except JSErr JSVal) :=
  (DOMsel name).map (fun sel => h (.str sel) args)

/-- A live node produced by the stub document factory used to observe the
Renderer: `createElement`/`createElementNS` record the tag (and namespace)
they were called with, `setAttribute` records string attributes in call
order (overwriting a same-named one in place), `appendChild` appends, and
`createTextNode` records its data. -/
inductive RNode where
  | text : String → RNode
  | elem : (tag : JSVal) → (ns : Option JSVal) →
      (attrs : List (String × String)) → (children : List RNode) → RNode

/-- `setAttribute(k, v)` on a stub element (attribute values are strings). -/
def setAttr (n : RNode) (k v : String) : RNode :=
  match n with
  | .text s => .text s
  | .elem t ns attrs cs => .elem t ns (setAssocStr attrs k v) cs

/-- `appendChild(c)` on a stub element. -/
def appendChildR (n c : RNode) : RNode :=
  match n with
  | .text s => .text s
  | .elem t ns attrs cs => .elem t ns attrs (cs ++ [c])

/-- `Object.keys(o)`: own enumerable keys in insertion order; throws on
`null`/`undefined`, yields `[]` for other primitives and arrays. -/
def objKeysE : JSVal → Except JSErr (List String)
  | .undefinedV => .error (.typeError "cannot convert undefined to object")
  | .null => .error (.typeError "cannot convert null to object")
  | .obj fields => .ok (fields.map (fun p => p.1))
  | _ => .ok []

/-- `defaultStyleFormatter` from the source: a non-null object value is
serialized to `"key:value;key2:value2"`; any other value passes through
unchanged. -/
def defaultStyleFormatter (value : JSVal) : JSVal :=
  match value with
  | .obj fields =>
    .str (String.intercalate ";"
      (fields.map (fun p => p.1 ++ ":" ++ jsToString p.2)))
  | v => v

/-- The formatter registry of a freshly constructed `Renderer`: the
constructor registers exactly `defaultStyleFormatter` under `"style"`. -/
def defaultFormatters : List (String × (JSVal → JSVal)) :=
  [("style", defaultStyleFormatter)]

/-- Formatter lookup (`this[_formatters][k]`). -/
def lookupFmt : List (String × (JSVal → JSVal)) → String → Option (JSVal → JSVal)
  | [], _ => none
  | (k', f) :: rest, k => if k' = k then some f else lookupFmt rest k

/-- `Renderer.render(vtree)` from the source, line by line, against the stub
document factory.  The `fuel` argument only bounds the recursion depth into
`children` (the JS function recurses on structurally smaller subtrees, so
any fuel larger than the tree depth is enough; fuel is never consumed on
the paths settled below, which return before recursing).  Note the source
reads `vtree.nodeName` and `vtree.attributes` although the Builder's VNodes
carry `tagName` and `properties`. -/
def renderF (formatters : List (String × (JSVal → JSVal))) :
    Nat → JSVal → Except JSErr RNode
  | _, .str s => .ok (.text s)
  | 0, _ => .error (.typeError "render recursion fuel exhausted")
  | fuel + 1, vtree => do
    let nodeName ← getMemberE vtree "nodeName"
    let attrs ← getMemberE vtree "attributes"
    let xm ← getMemberE attrs "xmlns"
    let n0 ← if jsTruthy xm then do
        let props ← getMemberE vtree "properties"
        let ns ← getMemberE props "xmlns"
        pure (RNode.elem nodeName (some ns) [] [])
      else pure (RNode.elem nodeName none [] [])
    let a ← getMemberE vtree "properties"
    let keys ← objKeysE a
    let n1 ← keys.foldlM (fun node k => do
        if k = "xmlns" then pure node
        else do
          let v ← getMemberE a k
          let v := match lookupFmt formatters k with
            | some f => f v
            | none => v
          pure (setAttr node k (jsToString v))) n0
    let childrenV ← getMemberE vtree "children"
    let childList ← match childrenV with
      | .arr cs => pure cs
      | c =>
        if jsTruthy c then Except.error (.typeError "children is not iterable")
        else pure ([] : List JSVal)
    let n2 ← childList.foldlM (fun node c => do
        let r ← renderF formatters fuel c
        pure (appendChildR node r)) n1
    pure n2

/-! ### Specification-side descriptions of the builder loop

The following definitions restate, token list by token list, what the spec
says the selector contributes; the lemmas below prove that the source's
loop computes exactly these. -/

/-- The class body contributed by a `.class` token, if any. -/
def classBody? (t : String) : Option String :=
  match t.data with
  | [] => none
  | c :: b => if c = '.' then some (String.mk b) else none

/-- The selector-derived classes, in selector order. -/
def classBodies (toks : List String) : List String :=
  toks.filterMap classBody?

/-- One step of the id accumulation: a `#id` token overwrites the id. -/
def idStep (acc : String) (t : String) : String :=
  match t.data with
  | [] => acc
  | c :: b => if c = '#' then String.mk b else acc

/-- The selector-derived id (the last `#` token wins). -/
def idFold (i : String) (toks : List String) : String :=
  toks.foldl idStep i

/-- One step of the tag accumulation: a non-`#`/`.` token becomes the tag
(with an `svg:` run stripped of its four-character head). -/
def tagStep (acc : String) (t : String) : String :=
  match t.data with
  | [] => t
  | c :: b =>
    if c = '#' then acc
    else if c = '.' then acc
    else if svgColonPre (c :: b) then String.mk ((c :: b).drop 4)
    else t

/-- The selector-derived tag name (last non-fragment token wins). -/
def tagFold (tg : String) (toks : List String) : String :=
  toks.foldl tagStep tg

/-- Whether a token forces the SVG namespace (an `svg:`-led token or the
bare token `svg`). -/
def svgTok (t : String) : Bool :=
  match t.data with
  | [] => false
  | c :: b =>
    if c = '#' then false
    else if c = '.' then false
    else svgColonPre (c :: b) || t = "svg"

/-- Whether any token of the selector forces the SVG namespace. -/
def hasSvgTok (toks : List String) : Bool :=
  toks.any svgTok

/-- A bare tag-word token: no `#`/`.` head, no `svg:` head, not `svg`
itself — a token that touches only the tag name, never the properties. -/
def plainTagTok (t : String) : Bool :=
  match t.data with
  | [] => true
  | c :: b =>
    !(c = '#') && !(c = '.') && !svgColonPre (c :: b) && !(t = "svg")

/-- The spec's children rule, in its own words: the children argument list
is flattened one level (arrays are spread) and then exactly the values
`null` and `undefined` are dropped; every other value is kept in order. -/
def specFlattenDropNullish (cs : List JSVal) : List JSVal :=
  (cs.flatMap (fun a => match a with
    | .arr xs => xs
    | v => [v])).filter (fun v => match v with
      | .null => false
      | .undefinedV => false
      | _ => true)

/-- A token that is not a `#id`/`.class` fragment. -/
def bareTok (t : String) : Bool :=
  match t.data with
  | [] => true
  | c :: _ => !(c = '#') && !(c = '.')

/-- The spec's "selector-derived tag name": the last bare-word token, or
`"div"` when there is none. -/
def specDerivedTag (toks : List String) : String :=
  (toks.filter bareTok).getLastD "div"

/-! ### Association-list lemmas -/

theorem lookupProp_setPropList (fs : List (String × JSVal)) (k k' : String)
    (v : JSVal) :
    lookupProp (setPropList fs k v) k' =
      if k = k' then some v else lookupProp fs k' := by
  induction fs with
  | nil =>
    by_cases hk : k = k' <;> simp [setPropList, lookupProp, hk]
  | cons p rest ih =>
    obtain ⟨pk, pv⟩ := p
    by_cases hpk : pk = k
    · subst hpk
      by_cases hk : pk = k' <;> simp [setPropList, lookupProp, hk]
    · by_cases hk : pk = k'
      · subst hk
        have hkk : ¬ k = pk := fun hh => hpk hh.symm
        simp [setPropList, lookupProp, hpk, hkk]
      · simp [setPropList, lookupProp, hpk, hk, ih]

theorem hasKey_setPropList (fs : List (String × JSVal)) (k k' : String)
    (v : JSVal) :
    hasKey (setPropList fs k v) k' = (k = k' || hasKey fs k') := by
  induction fs with
  | nil => simp [setPropList, hasKey]
  | cons p rest ih =>
    obtain ⟨pk, pv⟩ := p
    by_cases hpk : pk = k
    · subst hpk
      by_cases hk : pk = k' <;> simp [setPropList, hasKey, hk]
    · simp only [setPropList, hasKey, if_neg hpk, List.any_cons] at ih ⊢
      by_cases hk : pk = k' <;> simp [hk, ih, hasKey]

theorem setPropList_idem (fs : List (String × JSVal)) (k : String)
    (v : JSVal) :
    setPropList (setPropList fs k v) k v = setPropList fs k v := by
  induction fs with
  | nil => simp [setPropList]
  | cons p rest ih =>
    obtain ⟨pk, pv⟩ := p
    by_cases hpk : pk = k
    · subst hpk; simp [setPropList]
    · simp [setPropList, hpk, ih]

theorem lookupProp_delPropList (fs : List (String × JSVal)) (k k' : String) :
    lookupProp (delPropList fs k) k' =
      if k = k' then none else lookupProp fs k' := by
  induction fs with
  | nil =>
    by_cases hk : k = k' <;> simp [delPropList, lookupProp, hk]
  | cons p rest ih =>
    obtain ⟨pk, pv⟩ := p
    by_cases hpk : pk = k
    · subst hpk
      by_cases hk : pk = k'
      · subst hk
        simpa [delPropList, List.filter_cons] using ih
      · have hk' : ¬ (pk = k') := hk
        simp [delPropList, List.filter_cons, lookupProp, hk', ih] at ih ⊢
        exact ih
    · by_cases hk : pk = k'
      · subst hk
        have hkk : ¬ (k = pk) := fun hh => hpk hh.symm
        simp [delPropList, List.filter_cons, lookupProp, hpk, hkk]
      · simp [delPropList, List.filter_cons, lookupProp, hpk, hk, ih] at ih ⊢
        exact ih

theorem hasKey_delPropList (fs : List (String × JSVal)) (k k' : String) :
    hasKey (delPropList fs k) k' =
      if k = k' then false else hasKey fs k' := by
  induction fs with
  | nil =>
    by_cases hk : k = k' <;> simp [delPropList, hasKey, hk]
  | cons p rest ih =>
    obtain ⟨pk, pv⟩ := p
    by_cases hpk : pk = k
    · subst hpk
      by_cases hk : pk = k'
      · subst hk
        simp [delPropList, List.filter_cons, hasKey] at ih ⊢
      · simp [delPropList, List.filter_cons, hasKey, hk, ih] at ih ⊢
        exact ih
    · by_cases hk : pk = k'
      · subst hk
        have hkk : ¬ (k = pk) := fun hh => hpk hh.symm
        simp [delPropList, List.filter_cons, hasKey, hpk, hkk]
      · simp [delPropList, List.filter_cons, hasKey, hpk, hk, ih] at ih ⊢
        exact ih

/-! ### Characterization of the `createVNode` loop -/

theorem processPart_obj (i : String) (cl : List JSVal) (tg : String)
    (pv : List (String × JSVal)) (t : String) :
    processPart ⟨i, cl, tg, .obj pv⟩ t =
      .ok ⟨idStep i t, cl ++ ((classBody? t).map JSVal.str).toList,
           tagStep tg t,
           .obj (if svgTok t then setPropList pv "xmlns" (.str SVG_NS)
                 else pv)⟩ := by
  unfold processPart idStep classBody? tagStep svgTok
  cases ht : t.data with
  | nil => simp
  | cons c b =>
    by_cases hc : c = '#'
    · simp [hc]
    · by_cases hd : c = '.'
      · simp [hc, hd]
      · by_cases hs : svgColonPre (c :: b)
        · simp [hc, hd, hs, setMemberE, Except.bind]
        · by_cases hv : t = "svg"
          · simp [hc, hd, hs, hv, setMemberE, Except.bind]
          · simp [hc, hd, hs, hv]

theorem processParts_obj (toks : List String) :
    ∀ (i : String) (cl : List JSVal) (tg : String)
      (pv : List (String × JSVal)),
    processParts ⟨i, cl, tg, .obj pv⟩ toks =
      .ok ⟨idFold i toks, cl ++ (classBodies toks).map JSVal.str,
           tagFold tg toks,
           .obj (if hasSvgTok toks then setPropList pv "xmlns" (.str SVG_NS)
                 else pv)⟩ := by
  induction toks with
  | nil =>
    intro i cl tg pv
    simp [processParts, idFold, classBodies, tagFold, hasSvgTok, pure,
          Except.pure]
  | cons t rest ih =>
    intro i cl tg pv
    have hstep := processPart_obj i cl tg pv t
    by_cases hs : svgTok t
    · simp only [hs, if_true] at hstep
      have hrest := ih (idStep i t)
        (cl ++ ((classBody? t).map JSVal.str).toList) (tagStep tg t)
        (setPropList pv "xmlns" (.str SVG_NS))
      simp only [processParts, List.foldlM_cons] at hrest ⊢
      rw [hstep]
      simp only [Bind.bind, Except.bind] at hrest ⊢
      rw [hrest]
      have hsv : hasSvgTok (t :: rest) = true := by
        simp [hasSvgTok, hs]
      by_cases hr : hasSvgTok rest
      · simp [hr, hsv, setPropList_idem, idFold, tagFold, classBodies,
              List.filterMap_cons, List.foldl_cons, List.append_assoc]
        cases hcb : classBody? t <;> simp [hcb]
      · simp [hr, hsv, idFold, tagFold, classBodies,
              List.filterMap_cons, List.foldl_cons, List.append_assoc]
        cases hcb : classBody? t <;> simp [hcb]
    · simp only [hs, Bool.false_eq_true, if_false] at hstep
      have hrest := ih (idStep i t)
        (cl ++ ((classBody? t).map JSVal.str).toList) (tagStep tg t) pv
      simp only [processParts, List.foldlM_cons] at hrest ⊢
      rw [hstep]
      simp only [Bind.bind, Except.bind] at hrest ⊢
      rw [hrest]
      have hsv : hasSvgTok (t :: rest) = hasSvgTok rest := by
        simp [hasSvgTok, hs]
      rw [hsv]
      simp [idFold, tagFold, classBodies, List.filterMap_cons,
            List.foldl_cons, List.append_assoc]
      cases hcb : classBody? t <;> simp [hcb]

theorem hasKey_of_lookupProp (fs : List (String × JSVal)) (k : String)
    (v : JSVal) (hl : lookupProp fs k = some v) : hasKey fs k = true := by
  induction fs with
  | nil => simp [lookupProp] at hl
  | cons p rest ih =>
    obtain ⟨pk, pv⟩ := p
    by_cases hpk : pk = k
    · simp [hasKey, hpk]
    · simp only [lookupProp, if_neg hpk] at hl
      have hrest := ih hl
      simp only [hasKey, List.any_cons] at hrest ⊢
      simp [hpk, hrest]

/-! ### Shape of the tokens the selector grammar can produce -/

/-- A token produced by the first regex alternative: a nonempty run of
word-class characters. -/
def wordTok (t : String) : Prop :=
  t.data ≠ [] ∧ ∀ c ∈ t.data, isWordChar c = true

/-- A token produced by the second regex alternative: `#` or `.` followed
by a nonempty run of characters that are neither `#` nor `.`. -/
def fragTok (t : String) : Prop :=
  ∃ c b, t.data = c :: b ∧ isHashDot c = true ∧ b ≠ [] ∧
    ∀ d ∈ b, isHashDot d = false

theorem tokenizeGo_shape (fuel : Nat) :
    ∀ cs, ∀ t ∈ tokenizeGo fuel cs, wordTok t ∨ fragTok t := by
  induction fuel with
  | zero =>
    intro cs t ht
    cases cs <;> simp [tokenizeGo] at ht
  | succ n ih =>
    intro cs t ht
    cases cs with
    | nil => simp [tokenizeGo] at ht
    | cons c rest =>
      by_cases hw : isWordChar c
      · simp only [tokenizeGo, hw, if_true, List.mem_cons] at ht
        rcases ht with ht | ht
        · left
          subst ht
          refine ⟨by simp, ?_⟩
          intro d hd
          simp only [String.mk] at hd
          rcases List.mem_cons.mp hd with hd | hd
          · subst hd; exact hw
          · exact List.mem_takeWhile_imp hd
        · exact ih _ t ht
      · by_cases hhd : isHashDot c
        · simp only [tokenizeGo, hw, hhd, if_true, if_false,
            Bool.false_eq_true] at ht
          rcases hbody : rest.takeWhile (fun d => !isHashDot d) with
            _ | ⟨b0, bs⟩
          · rw [hbody] at ht
            exact ih _ t ht
          · rw [hbody] at ht
            rcases List.mem_cons.mp ht with ht | ht
            · right
              subst ht
              refine ⟨c, b0 :: bs, rfl, hhd, by simp, ?_⟩
              intro d hd
              have : d ∈ rest.takeWhile (fun d => !isHashDot d) := by
                rw [hbody]; exact hd
              have := List.mem_takeWhile_imp this
              simpa using this
            · exact ih _ t ht
        · simp only [tokenizeGo, hw, hhd, if_false, Bool.false_eq_true] at ht
          exact ih _ t ht

/-- Every token of a matched selector comes from one of the two regex
alternatives. -/
theorem matchSelectorE_shape (s : String) (toks : List String)
    (hm : matchSelectorE (.str s) = .ok (some toks)) :
    ∀ t ∈ toks, wordTok t ∨ fragTok t := by
  unfold matchSelectorE at hm
  by_cases hs : s = ""
  · simp [hs, jsTruthy] at hm
    subst hm
    intro t ht
    simp at ht
  · simp only [jsTruthy] at hm
    rw [if_pos (by simp [hs])] at hm
    rcases htoks : tokenize s.data with _ | ⟨t0, ts⟩
    · rw [htoks] at hm; simp at hm
    · rw [htoks] at hm
      simp only [Except.ok.injEq, Option.some.injEq] at hm
      subst hm
      intro t ht
      have : t ∈ tokenize s.data := by rw [htoks]; exact ht
      exact tokenizeGo_shape _ _ t this

theorem svgColonPre_true (cs : List Char) (h : svgColonPre cs = true) :
    ∃ rest, cs = 's' :: 'v' :: 'g' :: ':' :: rest := by
  unfold svgColonPre at h
  split at h
  · next tl heq => exact ⟨heq, rfl⟩
  · simp at h

/-- No selector token starts with `svg:` — a colon is outside the word
class and a fragment token starts with `#` or `.`. -/
theorem token_not_svgColon (t : String) (hsh : wordTok t ∨ fragTok t) :
    svgColonPre t.data = false := by
  cases hsvg : svgColonPre t.data
  · rfl
  · exfalso
    obtain ⟨rest, hdata⟩ := svgColonPre_true _ hsvg
    rcases hsh with ⟨_, hw⟩ | ⟨c, b, hd, hc, _, _⟩
    · have : (':' : Char) ∈ t.data := by rw [hdata]; simp
      have := hw ':' this
      simp [isWordChar] at this
    · rw [hd] at hdata
      have hc' : c = 's' := by injection hdata
      rw [hc'] at hc
      simp [isHashDot] at hc

/-- Full evaluation of `createVNode` on an object `properties` argument
whose selector tokenizes: every step of the source after the loop, written
out over the association list. -/
theorem createVNode_obj_eval (sel : JSVal) (toks : List String)
    (pv : List (String × JSVal)) (args : List JSVal)
    (hm : matchSelectorE sel = .ok (some toks)) :
    createVNode sel (.obj pv) args =
      (let pvL := if hasSvgTok toks then setPropList pv "xmlns" (.str SVG_NS)
                  else pv
       let i0 := idFold "" toks
       let pv1 := if i0 ≠ "" then
           (if hasKey pvL "id" then pvL else setPropList pvL "id" (.str i0))
         else pvL
       let tg0 := tagFold "div" toks
       let tagName := if jsTruthy ((lookupProp pv1 "xmlns").getD .undefinedV)
         then tg0 else jsToUpper tg0
       let classes := if hasKey pv1 "className" then
           (classBodies toks).map JSVal.str ++
             [(lookupProp pv1 "className").getD .undefinedV]
         else (classBodies toks).map JSVal.str
       let pv2 := if classes.length > 0 then
           setPropList
             (if hasKey pv1 "class" then
                delPropList
                  (setPropList pv1 "className"
                    ((lookupProp pv1 "class").getD .undefinedV)) "class"
              else pv1)
             "className" (.str (jsJoin " " classes))
         else pv1
       .ok (.obj [("tagName", .str tagName), ("properties", .obj pv2),
                  ("children",
                   .arr ((jsConcatSpread args).filter
                     (fun v => !jsLooseEqNull v)))])) := by
  by_cases c0 : hasSvgTok toks <;>
  by_cases c1 : idFold "" toks = "" <;>
  by_cases c2 : hasKey pv "id" <;>
  by_cases c3 : hasKey pv "className" <;>
  by_cases c4 : classBodies toks = [] <;>
  by_cases c5 : hasKey pv "class" <;>
    simp [createVNode, hm, processParts_obj, getMemberE, hasKeyE, setMemberE,
          delMemberE, jsTruthy, Bind.bind, Except.bind, pure, Except.pure,
          hasKey_setPropList, lookupProp_setPropList, hasKey_delPropList,
          lookupProp_delPropList, List.length_pos, c0, c1, c2, c3, c4, c5]

end HyperScript

namespace HyperScript

/-! ### Plain tag tokens touch nothing but the tag name -/

theorem plain_parts (t : String) (hp : plainTagTok t = true) :
    classBody? t = none ∧ (∀ i, idStep i t = i) ∧ svgTok t = false := by
  unfold plainTagTok at hp
  unfold classBody? idStep svgTok
  cases ht : t.data with
  | nil => simp
  | cons c b =>
    rw [ht] at hp
    simp only [Bool.and_eq_true, Bool.not_eq_true'] at hp
    obtain ⟨⟨⟨h1, h2⟩, h3⟩, h4⟩ := hp
    simp only [decide_eq_false_iff_not] at h1 h2 h4
    simp [h1, h2, h3, h4]

theorem classBodies_nil_of_plain (toks : List String)
    (hp : ∀ t ∈ toks, plainTagTok t = true) : classBodies toks = [] := by
  induction toks with
  | nil => rfl
  | cons t rest ih =>
    have hpt := hp t (by simp)
    have hrest := ih (fun u hu => hp u (by simp [hu]))
    simp [classBodies, List.filterMap_cons, (plain_parts t hpt).1,
          classBodies] at hrest ⊢
    exact hrest

theorem idFold_const_of_plain (toks : List String)
    (hp : ∀ t ∈ toks, plainTagTok t = true) : ∀ i, idFold i toks = i := by
  induction toks with
  | nil => intro i; rfl
  | cons t rest ih =>
    intro i
    have hpt := hp t (by simp)
    have hrest := ih (fun u hu => hp u (by simp [hu]))
    simp only [idFold, List.foldl_cons] at hrest ⊢
    rw [(plain_parts t hpt).2.1 i]
    exact hrest i

theorem hasSvgTok_false_of_plain (toks : List String)
    (hp : ∀ t ∈ toks, plainTagTok t = true) : hasSvgTok toks = false := by
  induction toks with
  | nil => rfl
  | cons t rest ih =>
    have hpt := hp t (by simp)
    have hrest := ih (fun u hu => hp u (by simp [hu]))
    simp [hasSvgTok, (plain_parts t hpt).2.2] at hrest ⊢
    exact hrest

/-! ### The loop's tag accumulation is the spec's last-bare-word rule -/

theorem tagFold_spec (toks : List String)
    (hns : ∀ t ∈ toks, svgColonPre t.data = false) :
    ∀ tg, tagFold tg toks = (toks.filter bareTok).getLastD tg := by
  induction toks with
  | nil => intro tg; rfl
  | cons t rest ih =>
    intro tg
    have hnt := hns t (by simp)
    have hrest := ih (fun u hu => hns u (by simp [hu]))
    have hfoldstep : tagFold tg (t :: rest) = tagFold (tagStep tg t) rest := rfl
    by_cases hb : bareTok t = true
    · have hstep : tagStep tg t = t := by
        unfold tagStep
        unfold bareTok at hb
        cases ht : t.data with
        | nil => rfl
        | cons c b =>
          rw [ht] at hb hnt
          simp only [Bool.and_eq_true, Bool.not_eq_true',
            decide_eq_false_iff_not] at hb
          simp [hb.1, hb.2, hnt]
      calc tagFold tg (t :: rest) = tagFold t rest := by rw [hfoldstep, hstep]
        _ = (List.filter bareTok rest).getLastD t := hrest t
        _ = (t :: List.filter bareTok rest).getLastD tg :=
            (List.getLastD_cons _ _ _).symm
        _ = (List.filter bareTok (t :: rest)).getLastD tg := by
            rw [List.filter_cons_of_pos hb]
    · have hb' : bareTok t = false := by
        cases hbb : bareTok t
        · rfl
        · exact absurd hbb hb
      have hstep : tagStep tg t = tg := by
        unfold tagStep
        unfold bareTok at hb'
        cases ht : t.data with
        | nil => rw [ht] at hb'; simp at hb'
        | cons c b =>
          rw [ht] at hb'
          by_cases hc : c = '#'
          · simp [hc]
          · by_cases hd : c = '.'
            · simp [hc, hd]
            · exfalso; simp [hc, hd] at hb'
      calc tagFold tg (t :: rest) = tagFold tg rest := by rw [hfoldstep, hstep]
        _ = (List.filter bareTok rest).getLastD tg := hrest tg
        _ = (List.filter bareTok (t :: rest)).getLastD tg := by
            rw [List.filter_cons_of_neg (by simp [hb'])]

/-! ### The children rule of the code is the children rule of the spec -/

theorem children_code_eq_spec (args : List JSVal) :
    (jsConcatSpread args).filter (fun v => !jsLooseEqNull v) =
      specFlattenDropNullish args := by
  unfold specFlattenDropNullish jsConcatSpread
  apply List.filter_congr
  intro x _
  cases x <;> rfl

end HyperScript

namespace HyperScript

/-! ### Characterization of the `DOM` factory object -/

theorem lookupAssocStr_setAssocStr (m : List (String × String))
    (k k' v : String) :
    lookupAssocStr (setAssocStr m k v) k' =
      if k = k' then some v else lookupAssocStr m k' := by
  induction m with
  | nil =>
    by_cases hk : k = k' <;> simp [setAssocStr, lookupAssocStr, hk]
  | cons p rest ih =>
    obtain ⟨pk, pv⟩ := p
    by_cases hpk : pk = k
    · subst hpk
      by_cases hk : pk = k' <;> simp [setAssocStr, lookupAssocStr, hk]
    · by_cases hk : pk = k'
      · subst hk
        have hkk : ¬ k = pk := fun hh => hpk hh.symm
        simp [setAssocStr, lookupAssocStr, hpk, hkk]
      · simp [setAssocStr, lookupAssocStr, hpk, hk, ih]

theorem lookupAssocStr_foldl_assign (f : String → String)
    (ts : List String) :
    ∀ (m : List (String × String)) (k : String),
    lookupAssocStr (ts.foldl (fun acc t => setAssocStr acc t (f t)) m) k =
      if k ∈ ts then some (f k) else lookupAssocStr m k := by
  induction ts with
  | nil => intro m k; simp
  | cons t rest ih =>
    intro m k
    simp only [List.foldl_cons]
    rw [ih]
    by_cases hk : k ∈ rest
    · simp [hk]
    · rw [lookupAssocStr_setAssocStr]
      by_cases ht : t = k
      · subst ht
        simp [hk]
      · have hmem : ¬ k ∈ t :: rest := by
          simp only [List.mem_cons, not_or]
          exact ⟨fun hh => ht hh.symm, hk⟩
        simp [hk, hmem, ht]

/-- The `DOM` object after the two `forEach` passes: an SVG tag name maps
to the `"svg:"`-led selector (SVG assignments run second and overwrite),
any remaining HTML tag name maps to itself, and nothing else is a key. -/
theorem DOMsel_eq (name : String) :
    DOMsel name =
      if name ∈ SVG_TAG_NAMES then some ("svg:" ++ name)
      else if name ∈ HTML_TAG_NAMES then some name
      else none := by
  unfold DOMsel DOMmap
  rw [lookupAssocStr_foldl_assign (fun t => "svg:" ++ t)]
  rw [lookupAssocStr_foldl_assign (fun t => t)]
  by_cases h1 : name ∈ SVG_TAG_NAMES <;>
  by_cases h2 : name ∈ HTML_TAG_NAMES <;>
    simp [h1, h2, lookupAssocStr]

/-! ### Observers for stating claims over `h` results -/

/-- Reads one field of a VNode result. -/
def fieldOf (r : Except JSErr JSVal) (k : String) : Except JSErr JSVal :=
  r.bind (fun v => getMemberE v k)

/-- Looks a key up in the `properties` object of a VNode result. -/
def resultProp (r : Except JSErr JSVal) (k : String) : Option JSVal :=
  match fieldOf r "properties" with
  | .ok (.obj pv) => lookupProp pv k
  | _ => none

/-- Whether the `properties` object of a VNode result has a key. -/
def resultHasProp (r : Except JSErr JSVal) (k : String) : Bool :=
  match fieldOf r "properties" with
  | .ok (.obj pv) => hasKey pv k
  | _ => false

/-! ### Routing of `h`'s first argument -/

theorem h_obj_props (sel : JSVal) (pv : List (String × JSVal))
    (rest : List JSVal) (hnv : isVNodeB (.obj pv) = false) :
    h sel (.obj pv :: rest) = createVNode sel (.obj pv) rest := by
  simp [h, hnv]

theorem h_obj_vnode (sel : JSVal) (pv : List (String × JSVal))
    (rest : List JSVal) (hv : isVNodeB (.obj pv) = true) :
    h sel (.obj pv :: rest) = createVNode sel (.obj []) (.obj pv :: rest) := by
  simp [h, hv]

theorem h_arr_first (sel : JSVal) (xs rest : List JSVal) :
    h sel (.arr xs :: rest) = createVNode sel (.obj []) (xs ++ rest) := rfl

end HyperScript

namespace HyperScript

/-! ### Fragment tokens touch neither the tag name nor the namespace -/

theorem frag_parts (t : String) (hb : bareTok t = false) :
    (∀ acc, tagStep acc t = acc) ∧ svgTok t = false := by
  unfold bareTok at hb
  unfold tagStep svgTok
  cases ht : t.data with
  | nil => rw [ht] at hb; simp at hb
  | cons c b =>
    rw [ht] at hb
    by_cases hc : c = '#'
    · simp [hc]
    · by_cases hd : c = '.'
      · simp [hc, hd]
      · exfalso; simp [hc, hd] at hb

theorem tagFold_const_of_frag (toks : List String)
    (hf : ∀ t ∈ toks, bareTok t = false) : ∀ tg, tagFold tg toks = tg := by
  induction toks with
  | nil => intro tg; rfl
  | cons t rest ih =>
    intro tg
    have hft := hf t (by simp)
    have hrest := ih (fun u hu => hf u (by simp [hu]))
    have : tagFold tg (t :: rest) = tagFold (tagStep tg t) rest := rfl
    rw [this, (frag_parts t hft).1 tg]
    exact hrest tg

theorem hasSvgTok_false_of_frag (toks : List String)
    (hf : ∀ t ∈ toks, bareTok t = false) : hasSvgTok toks = false := by
  induction toks with
  | nil => rfl
  | cons t rest ih =>
    have hft := hf t (by simp)
    have hrest := ih (fun u hu => hf u (by simp [hu]))
    simp [hasSvgTok, (frag_parts t hft).2] at hrest ⊢
    exact hrest

/-- A call with no properties argument behaves as a call with a fresh empty
object (`properties = properties || {}`). -/
theorem createVNode_undef_props (sel : JSVal) (args : List JSVal) :
    createVNode sel .undefinedV args = createVNode sel (.obj []) args := rfl

/-! ### Claims -/

/-- C1: the claim says rendering `h("div", {className: "x"}, "text")`
against a stub document yields one `DIV` element with a `class="x"`
attribute and one text child.  The Builder does produce the expected VNode,
but `Renderer.render` reads `vtree.attributes` (and `vtree.nodeName`) while
VNodes carry `properties`/`tagName`, so `vtree.attributes` is `undefined`
and the read of `.xmlns` on it throws a `TypeError` for every rendering
fuel — no element is ever created. -/
theorem c1_render_reads_attributes_and_throws (n : Nat) :
    h (.str "div") [.obj [("className", .str "x")], .str "text"] =
      .ok (.obj [("tagName", .str "DIV"),
                 ("properties", .obj [("className", .str "x")]),
                 ("children", .arr [.str "text"])]) ∧
    (h (.str "div") [.obj [("className", .str "x")], .str "text"]).bind
        (renderF defaultFormatters (n + 1)) =
      .error (.typeError "cannot read property xmlns of undefined") :=
  ⟨rfl, rfl⟩

/-- C2: the claim says `h` never raises and that a selector made only of
characters outside the token grammar (e.g. `"!!!"`) degrades to the `DIV`
defaults.  The falsy-selector guard does degrade (`h()` and `h("")` build a
bare `DIV`), but on `"!!!"` `String.match` finds no token and returns
`null`, and the `for…of` over `null` inside `createVNode` throws a
`TypeError`. -/
theorem c2_malformed_selector_throws :
    h (.str "!!!") [] = .error (.typeError "parts is not iterable") ∧
    h .undefinedV [] =
      .ok (.obj [("tagName", .str "DIV"), ("properties", .obj []),
                 ("children", .arr [])]) ∧
    h (.str "") [] =
      .ok (.obj [("tagName", .str "DIV"), ("properties", .obj []),
                 ("children", .arr [])]) :=
  ⟨rfl, rfl, rfl⟩

/-- C6: `h("svg:circle")` yields tag `"circle"` (case preserved) with the
SVG namespace, and `h("svg")` yields tag `"svg"` with the same namespace.
(The tokenizer actually splits `"svg:circle"` into `["svg", "circle"]` — a
colon is outside the token grammar — and the bare `svg` token sets the
namespace while `circle` becomes the tag, so the observable result is
exactly as claimed.) -/
theorem c6_svg_namespace :
    h (.str "svg:circle") [] =
      .ok (.obj [("tagName", .str "circle"),
                 ("properties", .obj [("xmlns", .str SVG_NS)]),
                 ("children", .arr [])]) ∧
    h (.str "svg") [] =
      .ok (.obj [("tagName", .str "svg"),
                 ("properties", .obj [("xmlns", .str SVG_NS)]),
                 ("children", .arr [])]) ∧
    SVG_NS = "http://www.w3.org/2000/svg" :=
  ⟨rfl, rfl, rfl⟩

end HyperScript

namespace HyperScript

/-- C7: the claim says every selector with no bare-word tag token — `#`/`.`
fragments only, the empty string, or characters outside the token grammar —
yields tag `"DIV"`.  For the empty selector and for selectors all of whose
tokens are fragments this holds (first conjunct), but a nonempty selector
with no token at all, such as `"!!!"`, makes `h` throw instead (second
conjunct): `String.match` returns `null` and the loop over it raises. -/
theorem c7_fragment_selectors_default_to_div :
    (∀ (s : String) (toks : List String),
      matchSelectorE (.str s) = .ok (some toks) →
      (∀ t ∈ toks, bareTok t = false) →
      fieldOf (h (.str s) []) "tagName" = .ok (.str "DIV")) ∧
    h (.str "!!!") [] = .error (.typeError "parts is not iterable") := by
  refine ⟨?_, rfl⟩
  intro s toks hm hf
  have hroute : h (.str s) [] = createVNode (.str s) (.obj []) [] := rfl
  rw [hroute, createVNode_obj_eval _ toks [] [] hm]
  have hdivu : jsToUpper (tagFold "div" toks) = "DIV" := by
    rw [tagFold_const_of_frag toks hf]; rfl
  by_cases hid : idFold "" toks = "" <;>
    simp [fieldOf, getMemberE, lookupProp, hasSvgTok_false_of_frag toks hf,
          hid, hdivu, setPropList, hasKey, jsTruthy, Bind.bind, Except.bind]

/-- C7 witness: `h("#foo.bar")` — two fragment tokens, no tag token — has
tag `"DIV"`. -/
theorem c7_fragment_selectors_default_to_div_witness :
    fieldOf (h (.str "#foo.bar") []) "tagName" = .ok (.str "DIV") :=
  c7_fragment_selectors_default_to_div.1 "#foo.bar" ["#foo", ".bar"]
    rfl (by decide)

end HyperScript

namespace HyperScript

/-- C3 counterexample: the claim says `h` leaves an explicitly passed
properties object unchanged.  But `createVNode` writes into that very
object (the VNode's `properties` field aliases it): after
`h(".foo", {className: "bar"})` the object holds `className: "foo bar"`,
not `className: "bar"`. -/
theorem c3_explicit_props_mutated :
    fieldOf (h (.str ".foo") [.obj [("className", .str "bar")]])
        "properties" =
      .ok (.obj [("className", .str "foo bar")]) ∧
    (JSVal.obj [("className", .str "foo bar")] =
        .obj [("className", .str "bar")] → False) :=
  ⟨rfl, by simp⟩

/-- C3 amended: `h` may mutate the caller's properties object in place
(selector-derived id/classes/namespace and the `className` join are written
into it, a `class` key may be deleted), and the VNode's `properties` field
is that same object.  Sufficient condition for the object to be left
unchanged, proved here: every selector token is a bare tag word (no `#`,
`.` or `svg` token) and the object has no `className` key.  (Other calls
can also leave it unchanged — e.g. `h("#foo", {id: "bar"})`, where the id
write is guarded by `!("id" in properties)` — so this is not an exact
characterization, only the guarantee.) -/
theorem c3_props_unchanged_on_plain_selectors (s : String)
    (toks : List String) (pv : List (String × JSVal))
    (hm : matchSelectorE (.str s) = .ok (some toks))
    (hp : ∀ t ∈ toks, plainTagTok t = true)
    (hcn : hasKey pv "className" = false)
    (hnv : isVNodeB (.obj pv) = false) :
    fieldOf (h (.str s) [.obj pv]) "properties" = .ok (.obj pv) := by
  rw [h_obj_props _ _ _ hnv, createVNode_obj_eval _ toks pv [] hm]
  have hid := idFold_const_of_plain toks hp ""
  simp [fieldOf, getMemberE, lookupProp, hasSvgTok_false_of_plain toks hp,
        classBodies_nil_of_plain toks hp, hid, hcn, Bind.bind, Except.bind]

/-- C3 witness: `h("div", {foo: "bar"})` leaves the properties object as
it was. -/
theorem c3_props_unchanged_witness :
    fieldOf (h (.str "div") [.obj [("foo", .str "bar")]]) "properties" =
      .ok (.obj [("foo", .str "bar")]) :=
  c3_props_unchanged_on_plain_selectors "div" ["div"] [("foo", .str "bar")]
    rfl (by decide) (by decide) (by decide)

/-- C10 counterexample: the claim says that when the first argument
duck-types as a VNode the resulting properties map is empty.  With a
class-fragment selector the properties map receives the selector-derived
class, so it is not empty (the duck-typed first argument still becomes the
first child). -/
theorem c10_duck_typed_props_not_empty :
    h (.str ".foo") [.obj [("tagName", .str "X"), ("properties", .obj [])]] =
      .ok (.obj [("tagName", .str "DIV"),
                 ("properties", .obj [("className", .str "foo")]),
                 ("children",
                  .arr [.obj [("tagName", .str "X"),
                              ("properties", .obj [])]])]) ∧
    (JSVal.obj [("className", .str "foo")] = .obj [] → False) :=
  ⟨rfl, by simp⟩

/-- C10 amended: an object first argument with both a `tagName` and a
`properties` key is always routed as a child — it is never consulted as the
properties map — so the built VNode's properties hold only selector-derived
entries (an empty map when every token is a bare tag word), and the object
is the first child. -/
theorem c10_duck_typed_first_is_child (s : String) (toks : List String)
    (pv : List (String × JSVal)) (rest : List JSVal)
    (hm : matchSelectorE (.str s) = .ok (some toks))
    (hp : ∀ t ∈ toks, plainTagTok t = true)
    (hv : isVNodeB (.obj pv) = true) :
    fieldOf (h (.str s) (.obj pv :: rest)) "properties" = .ok (.obj []) ∧
    fieldOf (h (.str s) (.obj pv :: rest)) "children" =
      .ok (.arr (.obj pv :: specFlattenDropNullish rest)) := by
  have hroute := h_obj_vnode (.str s) pv rest hv
  have hch : (jsConcatSpread (JSVal.obj pv :: rest)).filter
      (fun v => !jsLooseEqNull v) =
      JSVal.obj pv :: specFlattenDropNullish rest := by
    have h1 : jsConcatSpread (JSVal.obj pv :: rest) =
        JSVal.obj pv :: jsConcatSpread rest := by
      simp [jsConcatSpread]
    rw [h1, List.filter_cons_of_pos (by rfl), children_code_eq_spec rest]
  have hid := idFold_const_of_plain toks hp ""
  constructor <;>
    rw [hroute, createVNode_obj_eval _ toks [] (.obj pv :: rest) hm] <;>
    simp [fieldOf, getMemberE, lookupProp, hasSvgTok_false_of_plain toks hp,
          classBodies_nil_of_plain toks hp, hid, hch, hasKey, Bind.bind,
          Except.bind]

/-- C10 witness: `h("div", vnodeLikeObject)` has empty properties and the
object as its only child. -/
theorem c10_duck_typed_first_is_child_witness :
    fieldOf (h (.str "div")
        [.obj [("tagName", .str "X"), ("properties", .obj [])]])
      "properties" = .ok (.obj []) ∧
    fieldOf (h (.str "div")
        [.obj [("tagName", .str "X"), ("properties", .obj [])]])
      "children" =
      .ok (.arr (.obj [("tagName", .str "X"), ("properties", .obj [])] ::
        specFlattenDropNullish [])) :=
  c10_duck_typed_first_is_child "div" ["div"]
    [("tagName", .str "X"), ("properties", .obj [])] [] rfl (by decide)
    (by decide)

/-- C4: the children of a built VNode are the one-level flattening of the
children argument list with exactly `null` and `undefined` removed — other
falsy values (`0`, `""`, `false`) are kept in order.  Stated for a children
list following an explicit properties object and for a one-level array of
children. -/
theorem c4_children_flatten_drop_nullish (pv : List (String × JSVal))
    (cs xs : List JSVal) (hnv : isVNodeB (.obj pv) = false) :
    fieldOf (h (.str "div") (.obj pv :: cs)) "children" =
      .ok (.arr (specFlattenDropNullish cs)) ∧
    fieldOf (h (.str "div") [.arr xs]) "children" =
      .ok (.arr (specFlattenDropNullish xs)) := by
  constructor
  · rw [h_obj_props _ _ _ hnv,
        createVNode_obj_eval (.str "div") ["div"] pv cs rfl]
    simp [fieldOf, getMemberE, lookupProp, children_code_eq_spec,
          Bind.bind, Except.bind]
  · rw [h_arr_first, List.append_nil,
        createVNode_obj_eval (.str "div") ["div"] [] xs rfl]
    simp [fieldOf, getMemberE, lookupProp, children_code_eq_spec,
          Bind.bind, Except.bind]

/-- C4 witness: `0`, `""` and `false` survive, `null`/`undefined` are
dropped, and a nested array is spread one level. -/
theorem c4_children_flatten_drop_nullish_witness :
    fieldOf (h (.str "div")
        [.obj [], .num 0, .str "", .bool false, .null, .undefinedV,
         .arr [.str "a", .null]]) "children" =
      .ok (.arr (specFlattenDropNullish
        [.num 0, .str "", .bool false, .null, .undefinedV,
         .arr [.str "a", .null]])) :=
  (c4_children_flatten_drop_nullish []
    [.num 0, .str "", .bool false, .null, .undefinedV, .arr [.str "a", .null]]
    [] (by decide)).1

end HyperScript

namespace HyperScript

theorem jsJoin_str_list (sep : String) (l : List String) (cn : String) :
    jsJoin sep (l.map JSVal.str ++ [JSVal.str cn]) =
      String.intercalate sep (l ++ [cn]) := by
  unfold jsJoin
  congr 1
  rw [List.map_append, List.map_map]
  have hcomp : (jsJoinElem ∘ JSVal.str) = fun x => x := funext (fun x => rfl)
  rw [hcomp]
  simp
  rfl

/-- C5: with an explicit string `className` and a selector, the built
VNode's `className` is the space-join of the selector-derived classes (in
selector order) followed by the explicit `className`, and no `class` key
survives (when one was supplied together with `className`, it is deleted
and the joined `className` wins). -/
theorem c5_className_join (s : String) (toks : List String)
    (pv : List (String × JSVal)) (cn : String)
    (hm : matchSelectorE (.str s) = .ok (some toks))
    (hcn : lookupProp pv "className" = some (.str cn))
    (hnv : isVNodeB (.obj pv) = false)
    (_hcls : classBodies toks ≠ []) :
    resultProp (h (.str s) [.obj pv]) "className" =
      some (.str (String.intercalate " " (classBodies toks ++ [cn]))) ∧
    resultHasProp (h (.str s) [.obj pv]) "class" = false := by
  have hkey : hasKey pv "className" = true := hasKey_of_lookupProp _ _ _ hcn
  rw [h_obj_props _ _ _ hnv, createVNode_obj_eval (.str s) toks pv [] hm]
  by_cases c0 : hasSvgTok toks <;>
  by_cases c1 : idFold "" toks = "" <;>
  by_cases c2 : hasKey pv "id" <;>
  by_cases c5b : hasKey pv "class" <;>
    simp [resultProp, resultHasProp, fieldOf, getMemberE, lookupProp,
          lookupProp_setPropList, hasKey_setPropList, lookupProp_delPropList,
          hasKey_delPropList, hkey, hcn, c0, c1, c2, c5b, jsJoin_str_list,
          Bind.bind, Except.bind]

/-- C5 witness: `h(".foo", {class: "qux", className: "bar"})` has
`className = "foo bar"` and no `class` key. -/
theorem c5_className_join_witness :
    resultProp (h (.str ".foo")
        [.obj [("class", .str "qux"), ("className", .str "bar")]])
      "className" =
      some (.str (String.intercalate " " (classBodies [".foo"] ++ ["bar"]))) ∧
    resultHasProp (h (.str ".foo")
        [.obj [("class", .str "qux"), ("className", .str "bar")]])
      "class" = false :=
  c5_className_join ".foo" [".foo"]
    [("class", .str "qux"), ("className", .str "bar")] "bar" rfl rfl
    (by decide) (by decide)

/-- C8 counterexample: the claim says a present `properties.xmlns` makes
the tag keep its case.  The code tests truthiness, not presence: with the
falsy `xmlns: ""` the key is present in the result, yet the tag is
upper-cased. -/
theorem c8_falsy_xmlns_still_uppercases :
    h (.str "test") [.obj [("xmlns", .str "")]] =
      .ok (.obj [("tagName", .str "TEST"),
                 ("properties", .obj [("xmlns", .str "")]),
                 ("children", .arr [])]) ∧
    resultHasProp (h (.str "test") [.obj [("xmlns", .str "")]]) "xmlns" =
      true ∧
    (("TEST" : String) = "test" → False) :=
  ⟨rfl, rfl, by simp⟩

/-- C8 amended: the built VNode's tag is the selector-derived tag name
(the last bare-word token, `"div"` by default) kept as written when the
resulting `properties.xmlns` is truthy, and upper-cased when `xmlns` is
absent or falsy (presence with a falsy value, e.g. the empty string, still
upper-cases). -/
theorem c8_tag_case_rule (s : String) (toks : List String)
    (pv : List (String × JSVal))
    (hm : matchSelectorE (.str s) = .ok (some toks))
    (hnv : isVNodeB (.obj pv) = false) :
    fieldOf (h (.str s) [.obj pv]) "tagName" =
      .ok (.str
        (if jsTruthy ((resultProp (h (.str s) [.obj pv]) "xmlns").getD .undefinedV)
         then specDerivedTag toks
         else jsToUpper (specDerivedTag toks))) := by
  have hns : ∀ t ∈ toks, svgColonPre t.data = false :=
    fun t ht => token_not_svgColon t (matchSelectorE_shape s toks hm t ht)
  have htag : tagFold "div" toks = specDerivedTag toks := by
    rw [tagFold_spec toks hns "div"]; rfl
  rw [h_obj_props _ _ _ hnv, createVNode_obj_eval (.str s) toks pv [] hm]
  by_cases c0 : hasSvgTok toks <;>
  by_cases c1 : idFold "" toks = "" <;>
  by_cases c2 : hasKey pv "id" <;>
  by_cases c3' : hasKey pv "className" <;>
  by_cases c4' : classBodies toks = [] <;>
  by_cases c5' : hasKey pv "class" <;>
    simp [fieldOf, resultProp, getMemberE, lookupProp, htag,
          lookupProp_setPropList, hasKey_setPropList, lookupProp_delPropList,
          hasKey_delPropList, c0, c1, c2, c3', c4', c5', List.length_pos,
          Bind.bind, Except.bind]

/-- C8 witness: with a truthy explicit namespace the tag keeps its case
(the rule's `then` side at a concrete input). -/
theorem c8_tag_case_rule_witness :
    fieldOf (h (.str "muMIXED") [.obj [("xmlns", .str SVG_NS)]]) "tagName" =
      .ok (.str
        (if jsTruthy ((resultProp (h (.str "muMIXED")
            [.obj [("xmlns", .str SVG_NS)]]) "xmlns").getD .undefinedV)
         then specDerivedTag ["muMIXED"]
         else jsToUpper (specDerivedTag ["muMIXED"]))) :=
  c8_tag_case_rule "muMIXED" ["muMIXED"] [("xmlns", .str SVG_NS)] rfl
    (by decide)

end HyperScript

namespace HyperScript

set_option maxRecDepth 4000 in
/-- C9 counterexample: the claim says every known HTML tag's factory
forwards to `h(tag, ...)`. But the SVG `forEach` runs second, so the five
names in both lists (`font`, `image`, `script`, `style`, `title`) end up
bound to the SVG factory: `DOM.script()` builds an SVG-namespaced
`script`, not the `SCRIPT` that `h("script")` builds. -/
theorem c9_shared_tag_names_are_svg :
    DOMcall "script" [] =
      some (.ok (.obj [("tagName", .str "script"),
                       ("properties", .obj [("xmlns", .str SVG_NS)]),
                       ("children", .arr [])])) ∧
    h (.str "script") [] =
      .ok (.obj [("tagName", .str "SCRIPT"), ("properties", .obj []),
                 ("children", .arr [])]) ∧
    "script" ∈ HTML_TAG_NAMES ∧
    (("script" : String) = "SCRIPT" → False) :=
  ⟨rfl, rfl, by decide, by simp⟩

/-- C9 amended: every SVG tag name's factory forwards its whole argument
list to `h` with the `"svg:"`-led selector pre-filled, and every HTML tag
name that is not also an SVG tag name forwards to `h` with the tag itself —
the five names in both lists are owned by the SVG factories, which
overwrite the HTML ones. -/
theorem c9_factories_forward_to_h (name : String) (args : List JSVal) :
    (name ∈ SVG_TAG_NAMES →
      DOMcall name args = some (h (.str ("svg:" ++ name)) args)) ∧
    (name ∈ HTML_TAG_NAMES → name ∉ SVG_TAG_NAMES →
      DOMcall name args = some (h (.str name) args)) := by
  constructor
  · intro hs
    unfold DOMcall
    rw [DOMsel_eq]
    simp [hs]
  · intro hh hs
    unfold DOMcall
    rw [DOMsel_eq]
    simp [hs, hh]

/-- C9 witness: the SVG factory for `circle` and the HTML factory for
`div` (at the claim's example arguments) are `h` with the selector
pre-filled. -/
theorem c9_factories_forward_to_h_witness :
    DOMcall "circle" [] = some (h (.str "svg:circle") []) ∧
    DOMcall "div" [.str "#foo.bar", .obj [("className", .str "baz")],
        .obj [("tagName", .str "SPAN"), ("properties", .obj []),
              ("children", .arr [.obj [("tagName", .str "B"),
                                       ("properties", .obj []),
                                       ("children", .arr [.str "hello"])]])]] =
      some (h (.str "div")
        [.str "#foo.bar", .obj [("className", .str "baz")],
         .obj [("tagName", .str "SPAN"), ("properties", .obj []),
               ("children", .arr [.obj [("tagName", .str "B"),
                                        ("properties", .obj []),
                                        ("children",
                                         .arr [.str "hello"])]])]]) :=
  ⟨(c9_factories_forward_to_h "circle" []).1 (by decide),
   (c9_factories_forward_to_h "div" _).2 (by decide) (by decide)⟩

end HyperScript
